import Mathlib

/-!
Verification of the state-ledger reconciliation engine of
`threatstack-rule-manager` (`src/backend/src/tsctl/state.py` and
`src/backend/src/tsctl/api.py`), against its natural-language
specification.

The ledger is a JSON document
  `{workspace, organizations: {org: {ruleset: {modified, rules: {rule: status}}}}}`.
Python dicts are embedded as insertion-ordered association lists
(`List (String × _)`): updating an existing key keeps its position, a new
key is appended at the end, `pop` removes the key — exactly CPython's
observable dict semantics.  Opaque JSON payloads (`rule.json`,
`tags.json`, `ruleset.json` contents) are embedded as an opaque type `J`
(a `String`): the engine only passes them through, so nothing is lost.
-/

namespace TsCtl

/-- Opaque JSON payload.  The engine never inspects these beyond popping
server-only fields, which happens inside the transport getters. -/
abbrev J := String

/-! ### Association-list (Python dict) helpers -/

/-- `alSet k v l`: Python `d[k] = v` — update in place if `k` is present,
append at the end otherwise. -/
def alSet {β : Type} (k : String) (v : β) : List (String × β) → List (String × β)
  | [] => [(k, v)]
  | (k', v') :: t => if k' = k then (k, v) :: t else (k', v') :: alSet k v t

/-- `alErase k l`: Python `d.pop(k, None)` — drop the first binding of `k`. -/
def alErase {β : Type} (k : String) : List (String × β) → List (String × β)
  | [] => []
  | (k', v') :: t => if k' = k then t else (k', v') :: alErase k t

/-- Python `k in d` / `d[k]` lookup (first binding wins). -/
def alGet {β : Type} (k : String) : List (String × β) → Option β
  | [] => none
  | (k', v') :: t => if k' = k then some v' else alGet k t

instance exceptDecEq {ε α : Type} [DecidableEq ε] [DecidableEq α] :
    DecidableEq (Except ε α) := fun x y =>
  match x, y with
  | .ok a, .ok b =>
    if h : a = b then .isTrue (by rw [h]) else
      .isFalse fun hc => h (Except.ok.inj hc)
  | .error a, .error b =>
    if h : a = b then .isTrue (by rw [h]) else
      .isFalse fun hc => h (Except.error.inj hc)
  | .ok _, .error _ => .isFalse fun hc => Except.noConfusion hc
  | .error _, .ok _ => .isFalse fun hc => Except.noConfusion hc

/-! ### Python string helpers

These mirror the exact string operations the source uses
(`str.endswith`, `str.lower`, `x in s` substring tests), implemented by
structural recursion on the character list so that concrete instances
evaluate inside the kernel. -/

/-- `leadMatch n h`: the char list `n` is an initial segment of `h`. -/
def leadMatch : List Char → List Char → Bool
  | [], _ => true
  | _ :: _, [] => false
  | a :: as, b :: bs => a = b && leadMatch as bs

/-- Python `needle in hay` for strings: substring containment. -/
def hasSub (needle : List Char) : List Char → Bool
  | [] => leadMatch needle []
  | c :: t => leadMatch needle (c :: t) || hasSub needle t

/-- Python `s in t` on two strings (substring test). -/
def pyInStr (s t : String) : Bool := hasSub s.data t.data

/-- Python `s.endswith(t)`. -/
def strEndsWith (s t : String) : Bool := leadMatch t.data.reverse s.data.reverse

/-- Python `c.lower()` for a single ASCII character. -/
def lowerChar (c : Char) : Char :=
  if 'A' ≤ c ∧ c ≤ 'Z' then Char.ofNat (c.toNat + 32) else c

/-- Python `s.lower()`. -/
def lowerStr (s : String) : String := ⟨s.data.map lowerChar⟩

/-! ### The state ledger data model (`state.py`) -/

/-- The value of `state['organizations'][o][r]['rules']`.

In the source this is a dict `{rule_id: status}`, but the buggy merge
branch of `_state_add_rule`
(`state[...][ruleset_id]['rules'] = 'both'`, state.py line 457) can
replace the whole dict by the *string* `'both'`; the sum type keeps the
embedding faithful to both shapes. -/
inductive RulesVal : Type
  | map : List (String × String) → RulesVal
  | str : String → RulesVal
deriving DecidableEq, Repr

/-- Python `rule_id in rules`: key lookup on a dict, substring test on a
string. -/
def rulesContains (v : RulesVal) (x : String) : Bool :=
  match v with
  | .map m => (alGet x m).isSome
  | .str s => pyInStr x s

/-- Python `len(rules)`: number of keys of a dict, length of a string. -/
def rulesLen : RulesVal → Nat
  | .map m => m.length
  | .str s => s.data.length

/-- Python `rules == lit` where `lit` is a string literal: a dict never
equals a string. -/
def rulesEqStr (v : RulesVal) (lit : String) : Bool :=
  match v with
  | .map _ => false
  | .str s => s = lit

/-- One ruleset entry of the ledger: `{'modified': …, 'rules': …}`. -/
structure RsEntry : Type where
  modified : String
  rules : RulesVal
deriving DecidableEq, Repr

/-- `state['organizations'][o]`: ruleset id ↦ entry. -/
abbrev OrgLedger := List (String × RsEntry)

/-- The whole state file document. -/
structure Ledger : Type where
  workspace : String
  organizations : List (String × OrgLedger)
deriving DecidableEq, Repr

/-- Replace organization `o`'s map in the ledger. -/
def setOrg (o : String) (m : OrgLedger) (l : Ledger) : Ledger :=
  { l with organizations := alSet o m l.organizations }

/-! ### Ledger mutators (`state.py` `_state_*` methods)

Each mutator is pure on the in-memory ledger (the `state=` argument of
the source); exceptions the source raises (`ValueError`, the `KeyError`
from the `state['organization']` typo, `assert`, and the `TypeError`s
latent after the `rules`-corruption bug) are embedded as `Except.error`. -/

/-- `State._state_add_organization` (state.py 274–296). -/
def state_add_organization (o : String) (l : Ledger) : Ledger :=
  if (alGet o l.organizations).isSome then l
  else setOrg o [] l

/-- `State._state_delete_organization` (state.py 298–325). -/
def state_delete_organization (o : String) (l : Ledger) : Ledger :=
  { l with organizations := alErase o l.organizations }

/-- `State._state_add_ruleset` (state.py 327–368).  `action` is one of
`'true' | 'false' | 'del'`. -/
def state_add_ruleset (o r action : String) (l : Ledger) : Except String Ledger :=
  match alGet o l.organizations with
  | some org =>
    match alGet r org with
    | some e =>
      if action = "true" ∧ e.modified = "false" then
        .ok (setOrg o (alSet r { e with modified := "true" } org) l)
      else if action ≠ "del" ∧ e.modified = "del" then
        .error "Cannot add ruleset back to state file after being deleted."
      else if action = "false" ∧ e.modified = "true" then
        .error "Cannot unmodify a ruleset once it has been marked modified."
      else
        .ok l
    | none =>
      .ok (setOrg o (alSet r ⟨action, .map []⟩ org) l)
  | none =>
    let l' := state_add_organization o l
    .ok (setOrg o (alSet r ⟨action, .map []⟩ []) l')

/-- `State._state_delete_ruleset` (state.py 370–429).  `sfx` is the
local-only postfix (`'-localonly'`); the source lower-cases both sides
for this check only. -/
def state_delete_ruleset (sfx o r : String) (recursive : Bool) (l : Ledger) :
    Except String Ledger :=
  match alGet o l.organizations with
  | none => .ok l
  | some org =>
    match alGet r org with
    | none => .ok l
    | some e =>
      if strEndsWith (lowerStr r) (lowerStr sfx) then
        -- Local-only ruleset.
        if e.modified = "true" then
          if rulesLen e.rules = 0 then
            .ok (setOrg o (alErase r org) l)
          else if recursive then
            .ok (setOrg o (alErase r org) l)
          else
            .ok l
        else
          .error "local-only rulesets should only have a true modified value."
      else
        -- Local copy of a ruleset that also exists remotely.
        if e.modified = "true" then
          if rulesLen e.rules = 0 then
            -- Source typo: `state['organization'][...]` — a KeyError at runtime.
            .error "KeyError: organization"
          else if recursive then
            .ok (setOrg o (alSet r { e with modified := "del" } org) l)
          else
            .ok l
        else if e.modified = "false" then
          if rulesLen e.rules = 0 then
            .error "unmodified rulesets cannot have zero rules."
          else if recursive then
            .ok (setOrg o (alSet r { e with modified := "del" } org) l)
          else
            .ok l
        else if e.modified = "del" then
          if rulesLen e.rules = 0 then .ok l
          else .error "AssertionError"
        else
          .ok l

/-- The body of `State._state_add_rule` for the case that the ruleset is
already tracked (state.py 451–457).  Mirrors the source's comparison of
the whole `rules` value against status strings (the bug the spec's §9
points out): for a dict, `rules != 'both'` is always true and
`rules == 'tags'` / `rules == 'rule'` always false. -/
def state_add_rule_entry (e : RsEntry) (x endpoint : String) : Except String RsEntry :=
  if ¬ rulesContains e.rules x then
    match e.rules with
    | .map m => .ok { e with rules := .map (alSet x endpoint m) }
    | .str _ => .error "TypeError: str object does not support item assignment"
  else if (endpoint = "both" ∧ ¬ rulesEqStr e.rules "both")
        ∨ (endpoint = "rule" ∧ rulesEqStr e.rules "tags")
        ∨ (endpoint = "tags" ∧ rulesEqStr e.rules "rule") then
    .ok { e with rules := .str "both" }
  else
    .ok e

/-- `State._state_add_rule` (state.py 431–472).  The source recurses
after inserting the missing organization / ruleset; since
`_state_add_ruleset` always inserts the entry, the recursion always
lands in the entry-present branch, which is inlined here. -/
def state_add_rule (o r x endpoint : String) (l : Ledger) : Except String Ledger :=
  match alGet o l.organizations with
  | some org =>
    match alGet r org with
    | some e =>
      (state_add_rule_entry e x endpoint).map fun e' =>
        setOrg o (alSet r e' org) l
    | none => do
      let l' ← state_add_ruleset o r "false" l
      match alGet o l'.organizations with
      | some org' =>
        match alGet r org' with
        | some e =>
          (state_add_rule_entry e x endpoint).map fun e' =>
            setOrg o (alSet r e' org') l'
        | none => .ok l'
      | none => .ok l'
  | none => do
    let l₀ := state_add_organization o l
    let l' ← state_add_ruleset o r "false" l₀
    match alGet o l'.organizations with
    | some org' =>
      match alGet r org' with
      | some e =>
        (state_add_rule_entry e x endpoint).map fun e' =>
          setOrg o (alSet r e' org') l'
      | none => .ok l'
    | none => .ok l'

/-- `State._state_delete_rule` (state.py 474–507).  Scans the
organization's rulesets in order and acts on the first one whose `rules`
contains `x`. -/
def state_delete_rule (sfx o x : String) (l : Ledger) : Except String Ledger :=
  match alGet o l.organizations with
  | none => .ok l
  | some org =>
    match org.find? (fun p => rulesContains p.2.rules x) with
    | none => .ok l
    | some (r, e) =>
      if rulesLen e.rules = 1 ∧ e.modified = "false" then
        -- Only rule on an unmodified ruleset: the source delegates to
        -- `_state_delete_ruleset(ruleset_id, state=state)` (recursive=False).
        state_delete_ruleset sfx o r false l
      else
        match e.rules with
        | .map m => .ok (setOrg o (alSet r { e with rules := .map (alErase x m) } org) l)
        | .str _ => .error "AttributeError: str object has no attribute pop"

/-! ### Push (`State.push`, state.py 93–196)

The push walks the ledger entries for one organization and issues API
calls.  The embedding records the calls in order as an `ApiCall` trace.
Opaque payload reads (`read_json(... 'rule.json')` etc.) are abstracted
away — the source only forwards them to the transport; directory
renames performed after `POST` responses are modelled on a name-level
filesystem (`OrgFs`).  Platform-assigned identifiers returned by
`post_ruleset` / `post_rule` are supplied by an `IdOracle` keyed by the
local identifier being posted.

The source iterates `state['organizations'][org]` as a Python dict while
mutating it; the embedding iterates the entries as read at loop entry
(their values are not modified before being processed on any
non-crashing path).  The in-memory ledger mutations made during the walk
by `_state_delete_ruleset(…, state=state)` are threaded through because
they can raise, but their final value is *discarded*: the only write the
source performs is `_state_delete_organization(self.org_id)`, which
re-reads the state file afresh and pops the organization. -/

/-- One transport call issued by `push`, identified by the ids the
source passes (opaque payloads omitted). -/
inductive ApiCall : Type
  | postRuleset (localId : String)
  | putRuleset (rulesetId : String)
  | deleteRulesetCall (rulesetId : String)
  | postRule (rulesetId : String) (localId : String)
  | putRule (rulesetId : String) (ruleId : String)
  | postTags (ruleId : String)
  | deleteRuleCall (rulesetId : String) (ruleId : String)
deriving DecidableEq, Repr

/-- Platform-assigned ids returned by the `POST` endpoints, keyed by the
local id whose payload was posted. -/
structure IdOracle : Type where
  rsId : String → String
  ruleId : String → String

/-- Name-level view of one organization's mirror directory: ruleset
directory names with their rule directory names. -/
abbrev OrgFs := List (String × List String)

/-- `os.rename` of a ruleset directory. -/
def fsRenameRs (old new : String) (fs : OrgFs) : OrgFs :=
  fs.map fun p => if p.1 = old then (new, p.2) else p

/-- `os.rename` of a rule directory inside ruleset `rs`. -/
def fsRenameRule (rs old new : String) (fs : OrgFs) : OrgFs :=
  fs.map fun p =>
    if p.1 = rs then (p.1, p.2.map fun n => if n = old then new else n) else p

/-- Per-rule calls for a rule that already has a platform id
(state.py 140–148 and 176–184): `both` → PUT rule then POST tags,
`rule` → PUT rule, `tags` → POST tags, anything else → nothing. -/
def pushRemoteRule (r x status : String) : List ApiCall :=
  if status = "both" then [.putRule r x, .postTags x]
  else if status = "rule" then [.putRule r x]
  else if status = "tags" then [.postTags x]
  else []

/-- Walk the rules of one ruleset entry in order (state.py 120–148 /
156–184).  `r` is the ruleset id used for the requests (the platform id
for a freshly POSTed ruleset).  Local-suffixed rules are POSTed and
their directory renamed to the returned id; a local-suffixed rule whose
status is neither `both` nor `rule` raises `ValueError`. -/
def pushRulesWalk (oracle : IdOracle) (sfx r : String) :
    List (String × String) → OrgFs → Except String (List ApiCall × OrgFs)
  | [], fs => .ok ([], fs)
  | (x, status) :: t, fs =>
    if strEndsWith x sfx then
      if status = "both" then do
        let x' := oracle.ruleId x
        let (cs, fs') ← pushRulesWalk oracle sfx r t (fsRenameRule r x x' fs)
        .ok ([.postRule r x, .postTags x'] ++ cs, fs')
      else if status = "rule" then do
        let x' := oracle.ruleId x
        let (cs, fs') ← pushRulesWalk oracle sfx r t (fsRenameRule r x x' fs)
        .ok (.postRule r x :: cs, fs')
      else
        .error "New rulesets cannot contain new rules with only tag edits."
    else do
      let (cs, fs') ← pushRulesWalk oracle sfx r t fs
      .ok (pushRemoteRule r x status ++ cs, fs')

/-- Walk the organization's ruleset entries in order (state.py 107–190).
Returns the call trace, the final in-memory ledger (discarded by the
caller, matching the source) and the final filesystem. -/
def pushWalk (oracle : IdOracle) (sfx o : String) :
    List (String × RsEntry) → Ledger → OrgFs →
    Except String (List ApiCall × Ledger × OrgFs)
  | [], mem, fs => .ok ([], mem, fs)
  | (r, e) :: t, mem, fs =>
    if strEndsWith r sfx then
      -- Local-only ruleset: POST it, rename the directory, move the
      -- ledger entry under the platform id (pop + reinsert appends).
      match e.rules with
      | .str _ => .error "TypeError: string indices must be integers"
      | .map m => do
        let r' := oracle.rsId r
        let fs₁ := fsRenameRs r r' fs
        let mem₁ :=
          match alGet o mem.organizations with
          | some om => setOrg o (alSet r' e (alErase r om)) mem
          | none => mem
        let (cs, fs₂) ← pushRulesWalk oracle sfx r' m fs₁
        -- `_state_delete_ruleset(ruleset_id, state=state)` — called with
        -- the stale local id, which is no longer a key: a no-op.
        let mem₂ ← state_delete_ruleset sfx o r false mem₁
        let (cs', mem₃, fs₃) ← pushWalk oracle sfx o t mem₂ fs₂
        .ok (.postRuleset r :: cs ++ cs', mem₃, fs₃)
    else if e.modified = "true" then
      match e.rules with
      | .str _ => .error "TypeError: string indices must be integers"
      | .map m => do
        let (cs, fs₁) ← pushRulesWalk oracle sfx r m fs
        let mem₁ ← state_delete_ruleset sfx o r false mem
        let (cs', mem₂, fs₂) ← pushWalk oracle sfx o t mem₁ fs₁
        .ok (.putRuleset r :: cs ++ cs', mem₂, fs₂)
    else if e.modified = "del" then do
      let mem₁ ← state_delete_ruleset sfx o r false mem
      let (cs', mem₂, fs₂) ← pushWalk oracle sfx o t mem₁ fs
      .ok (.deleteRulesetCall r :: cs', mem₂, fs₂)
    else do
      -- No branch of the source handles `modified == 'false'`: the
      -- entry's dirty rules are skipped entirely.
      let mem₁ ← state_delete_ruleset sfx o r false mem
      let (cs', mem₂, fs₂) ← pushWalk oracle sfx o t mem₁ fs
      .ok (cs', mem₂, fs₂)

/-- `State.push` (state.py 93–196).  When the organization is absent
from the ledger the method returns immediately; otherwise it walks the
entries and finally persists `_state_delete_organization(org)`, which
re-reads the (unmodified) state file and pops the organization — the
in-memory mutations of the walk are never written. -/
def push (oracle : IdOracle) (sfx o : String) (l : Ledger) (fs : OrgFs) :
    Except String (List ApiCall × Ledger × OrgFs) :=
  match alGet o l.organizations with
  | none => .ok ([], l, fs)
  | some org => do
    let (cs, _mem, fs') ← pushWalk oracle sfx o org l fs
    .ok (cs, state_delete_organization o l, fs')

/-! ### Refresh (`State.refresh`, state.py 198–270)

The mirror of one organization is embedded content-level: the children
of the organization directory (ruleset directories with their
`ruleset.json` and rule subdirectories holding `rule.json` /
`tags.json`), plus the transient `.backup` and `.remote` directories.
The remote fetch outcome is a parameter: `FetchResult.ok` carries the
full capture, `FetchResult.failure` carries whatever partial capture had
been written into `.remote` before the `URLError` / `KeyboardInterrupt`
was raised. -/

/-- Contents of one rule directory. -/
structure RuleDirData : Type where
  ruleJson : J
  tagsJson : J
deriving DecidableEq, Repr

/-- Contents of one ruleset directory. -/
structure RsDirData : Type where
  rulesetJson : J
  rules : List (String × RuleDirData)
deriving DecidableEq, Repr

/-- One organization's directory: its ruleset children and the two
transient staging directories. -/
structure OrgMirror : Type where
  entries : List (String × RsDirData)
  backupDir : Option (List (String × RsDirData))
  remoteDir : Option (List (String × RsDirData))
deriving DecidableEq, Repr

/-- One rule as fetched from the platform (after the transport getters
stripped the non-POSTable fields). -/
structure RemoteRule : Type where
  id : String
  ruleJson : J
  tagsJson : J
deriving DecidableEq, Repr

/-- One ruleset as fetched from the platform, with its rules and their
tags. -/
structure RemoteRuleset : Type where
  id : String
  rulesetJson : J
  rules : List RemoteRule
deriving DecidableEq, Repr

/-- Outcome of the fetch loop of `refresh` (state.py 231–254). -/
inductive FetchResult : Type
  | ok (rulesets : List RemoteRuleset)
  | failure (partData : List RemoteRuleset)
deriving DecidableEq, Repr

/-- Write a remote capture under `.remote/` in the canonical layout
(state.py 233–254). -/
def writeRemote (rs : List RemoteRuleset) : List (String × RsDirData) :=
  rs.map fun r =>
    (r.id, ⟨r.rulesetJson, r.rules.map fun x => (x.id, ⟨x.ruleJson, x.tagsJson⟩)⟩)

/-- Crash recovery at the top of `refresh` (state.py 213–219): delete a
leftover `.remote`, then move `.backup`'s children back into the
organization directory and remove `.backup`.

The restore uses `shutil.move(backup_dir + ruleset, self.organization_dir)`
whose destination is the organization *directory*: when a child of the
same name already exists there (the state left by a crash during the
success-path moves of a previous refresh, whose capture children keep
their platform-assigned ids), `shutil.move` raises
`shutil.Error("Destination path ... already exists")`.  The source moves
the children one by one and aborts at the first collision, leaving a
partial restore on disk and `.backup` in place; the embedding surfaces
the exception. -/
def refreshRecover (m : OrgMirror) : Except String OrgMirror :=
  let m₁ : OrgMirror := { m with remoteDir := none }
  match m₁.backupDir with
  | some b =>
    if b.any fun p => (alGet p.1 m₁.entries).isSome then
      .error "shutil.Error: Destination path already exists"
    else
      .ok { entries := m₁.entries ++ b, backupDir := none, remoteDir := none }
  | none => .ok m₁

/-- `State.refresh` (state.py 198–270).  After (fallible) recovery,
fresh `.backup` and `.remote` are created and every other child is
moved into `.backup`; the fetch then either succeeds (its capture
replaces the mirror and the organization's ledger entry is dropped) or
fails (`.remote` is deleted, `.backup` is moved back and removed, and
the ledger is untouched).  Unlike the recovery restore, the
failure-path restore (state.py 260) moves each child to the explicit
path `organization_dir + ruleset`, which cannot exist — step 3 left
only the staging directories in the organization directory and the
fetch writes only under `.remote` — so it is total. -/
def refresh (o : String) (m : OrgMirror) (l : Ledger) (fetch : FetchResult) :
    Except String (OrgMirror × Ledger) :=
  match refreshRecover m with
  | .error e => .error e
  | .ok m₁ =>
    -- state.py 221–226: os.mkdir backup/remote; move children into backup.
    let backedUp : OrgMirror := ⟨[], some m₁.entries, some []⟩
    match fetch with
    | .failure partData =>
      -- state.py 255–263: the partial capture sits in `.remote`, which is
      -- rmtree'd; `.backup`'s children move back; `.backup` is removed.
      let _written : OrgMirror :=
        { backedUp with remoteDir := some (writeRemote partData) }
      .ok (⟨backedUp.backupDir.getD [], none, none⟩, l)
    | .ok rs =>
      -- state.py 264–270: move `.remote`'s children into the organization
      -- directory, drop both staging directories, clear the ledger entry.
      .ok (⟨writeRemote rs, none, none⟩, state_delete_organization o l)

/-! ### Transport retry (`api.py` `retry`, `_get`/`_put`/`_post`/`_delete`)

Each attempt of a wrapped call either returns a value, raises
`RateLimitedError` carrying a sleep duration, or raises `URLError`.
Durations are embedded exactly, in *milliseconds*: the source sleeps
`float(headers['x-rate-limit-reset']) / 1_000` seconds (plus `0.25`
seconds in `_get` only), i.e. `resetMs` (resp. `resetMs + 250`)
milliseconds. -/

/-- Result of one attempt of a wrapped transport call. Delays are in
milliseconds. -/
inductive Outcome (α : Type) : Type
  | success (v : α)
  | rateLimited (delayMs : ℕ)
  | urlError
deriving DecidableEq, Repr

/-- Whether an attempt succeeded. -/
def isSuccess {α : Type} : Outcome α → Bool
  | .success _ => true
  | _ => false

/-- The value of a successful attempt. -/
def outcomeValue {α : Type} : Outcome α → Option α
  | .success v => some v
  | _ => none

/-- An HTTP response as the `_get`/`_put`/`_post`/`_delete` bodies see
it: an optional parsed JSON body, the status code, and the
`x-rate-limit-reset` header (milliseconds). -/
structure HttpResponse (α : Type) : Type where
  jsonBody : Option α
  status : ℕ
  resetMs : ℕ
deriving DecidableEq, Repr

/-- `API._post` / `API._put` / `API._delete` (api.py 426–456, 286–316,
361–390): a parsed body is returned as-is; otherwise a 429 raises
`RateLimitedError(delay = reset / 1_000)` — no fudge term — and
anything else raises `URLError`. -/
def postOutcome {α : Type} (r : HttpResponse α) : Outcome α :=
  match r.jsonBody with
  | some v => .success v
  | none => if r.status = 429 then .rateLimited r.resetMs else .urlError

/-- `API._get` (api.py 154–185): as `postOutcome`, but the delay gets an
extra quarter second (`+ 0.25` s, i.e. 250 ms). -/
def getOutcome {α : Type} (r : HttpResponse α) : Outcome α :=
  match r.jsonBody with
  | some v => .success v
  | none => if r.status = 429 then .rateLimited (r.resetMs + 250) else .urlError

/-- The loop body of `retry` (api.py 50–74): starting at attempt `i`
with `budget` calls left, return the list of sleeps performed (in
milliseconds, in order) and the result.  A rate-limited attempt sleeps
its delay and retries; a `URLError` retries at once; exhaustion returns
`None` (api.py 69) — no exception escapes. -/
def retryGo {α : Type} (attempts : ℕ → Outcome α) : ℕ → ℕ → List ℕ × Option α
  | _, 0 => ([], none)
  | i, b + 1 =>
    match attempts i with
    | .success v => ([], some v)
    | .rateLimited d =>
      let p := retryGo attempts (i + 1) b
      (d :: p.1, p.2)
    | .urlError => retryGo attempts (i + 1) b

/-- `retry(tries)` with `tries > 0` (api.py 64–69): up to `tries`
attempts. -/
def retryN {α : Type} (attempts : ℕ → Outcome α) (tries : ℕ) : List ℕ × Option α :=
  retryGo attempts 0 tries

/-- The delays slept over attempts `i, i+1, …, i+k-1`. -/
def rlDelaysFrom {α : Type} (attempts : ℕ → Outcome α) (i : ℕ) : ℕ → List ℕ
  | 0 => []
  | k + 1 =>
    match attempts i with
    | .rateLimited d => d :: rlDelaysFrom attempts (i + 1) k
    | _ => rlDelaysFrom attempts (i + 1) k

/-- `retry(0)` (api.py 70–74): `while not call(): pass` — the loop runs
until the first success, which exists by hypothesis; any budget past
that first success yields the loop's behaviour, so the loop is embedded
as `retryGo` run just past the first success index. -/
def retryZero {α : Type} (attempts : ℕ → Outcome α)
    (h : ∃ k, isSuccess (attempts k) = true) : List ℕ × Option α :=
  retryGo attempts 0 (Nat.find h + 1)

/-! ### Spec-side definitions for comparison -/

/-- Follows the spec's words (§4.3): the status merge lattice
`rule ∨ tags = both`, `rule ∨ rule = rule`, `both ∨ anything = both`
(and symmetrically), i.e. join is identity on equal statuses and `both`
otherwise. -/
def specStatusJoin (a b : String) : String := if a = b then a else "both"

/-- Invariant I1 (spec §3): every ledger ruleset id ending in the local
suffix has `modified == "true"`. -/
def I1 (sfx : String) (l : Ledger) : Prop :=
  ∀ p ∈ l.organizations, ∀ q ∈ p.2,
    strEndsWith q.1 sfx = true → (q.2 : RsEntry).modified = "true"

instance I1.dec (sfx : String) (l : Ledger) : Decidable (I1 sfx l) := by
  unfold I1; infer_instance

/-! ### Ledger mutator sequences (for invariant preservation) -/

/-- One call to a ledger mutator of §4.3. -/
inductive MutOp : Type
  | addOrg (o : String)
  | delOrg (o : String)
  | addRs (o r action : String)
  | delRs (o r : String) (recursive : Bool)
  | addRl (o r x endpoint : String)
  | delRl (o x : String)
deriving DecidableEq, Repr

/-- Apply one mutator to the in-memory ledger. -/
def applyOp (sfx : String) : MutOp → Ledger → Except String Ledger
  | .addOrg o, l => .ok (state_add_organization o l)
  | .delOrg o, l => .ok (state_delete_organization o l)
  | .addRs o r a, l => state_add_ruleset o r a l
  | .delRs o r rec, l => state_delete_ruleset sfx o r rec l
  | .addRl o r x ep, l => state_add_rule o r x ep l
  | .delRl o x, l => state_delete_rule sfx o x l

/-- Side condition under which a mutator call respects I1: `addRuleset`
on a local-suffixed ruleset only ever uses action `"true"` (as
`_create_ruleset` does), and `addRule` never targets a local-suffixed
ruleset that is absent from the ledger. -/
def goodOp (sfx : String) : MutOp → Ledger → Bool
  | .addRs _ r a, _ => !(strEndsWith r sfx) || (a == "true")
  | .addRl o r _ _, l =>
    !(strEndsWith r sfx) ||
      (match alGet o l.organizations with
       | some org => (alGet r org).isSome
       | none => false)
  | _, _ => true

/-- Apply a sequence of mutator calls left to right. -/
def applyOps (sfx : String) : List MutOp → Ledger → Except String Ledger
  | [], l => .ok l
  | op :: t, l => (applyOp sfx op l).bind (applyOps sfx t)

/-- Every call of the sequence satisfies its side condition in the state
it runs in. -/
def goodRun (sfx : String) : List MutOp → Ledger → Bool
  | [], _ => true
  | op :: t, l =>
    goodOp sfx op l &&
      match applyOp sfx op l with
      | .ok l' => goodRun sfx t l'
      | .error _ => true

/-! ## Theorems for the claims -/

/-- C1: the claim says that for a ledger ruleset entry with
`modified == "false"` and a non-empty rules map, `push` skips the
ruleset PUT but still applies each dirty rule's action — in particular,
after a tags-only edit of a remote-named rule, exactly one `postTags`
and no `putRule`.  The code has no branch for `modified == "false"` at
all (state.py 110–187 handle only the local-suffix, `'true'` and
`'del'` cases), so `push` on exactly that ledger issues NO api calls
whatsoever: the dirty `"tags"` rule is silently discarded and the
organization's ledger entry is still cleared. -/
theorem c1_push_drops_unmodified_ruleset_rules :
    push ⟨fun s => "RS-" ++ s, fun s => "RL-" ++ s⟩ "-localonly" "o1"
        ⟨"o1", [("o1", [("r9", ⟨"false", .map [("x9", "tags")]⟩)])]⟩
        [("r9", ["x9"])]
      = .ok ([], ⟨"o1", []⟩, [("r9", ["x9"])]) := by
  decide

/-- C2: the claim says `addRule(r, x, a); addRule(r, x, b)` equals
`addRule(r, x, a ∨ b)` for the status lattice.  The source's
`_state_add_rule` compares the whole `rules` dict against status
strings (state.py 454–456), so the second call with `b = "tags"` after
`a = "rule"` is a no-op, while the single joined call records `"both"`:
the two ledgers differ. -/
theorem c2_add_rule_merge_is_not_the_lattice :
    ((state_add_rule "o1" "r9" "x9" "rule" ⟨"o1", []⟩).bind
        (state_add_rule "o1" "r9" "x9" "tags")
      = .ok ⟨"o1", [("o1", [("r9", ⟨"false", .map [("x9", "rule")]⟩)])]⟩)
    ∧ (state_add_rule "o1" "r9" "x9" (specStatusJoin "rule" "tags") ⟨"o1", []⟩
      = .ok ⟨"o1", [("o1", [("r9", ⟨"false", .map [("x9", "both")]⟩)])]⟩)
    ∧ ((state_add_rule "o1" "r9" "x9" "rule" ⟨"o1", []⟩).bind
        (state_add_rule "o1" "r9" "x9" "tags")
      ≠ state_add_rule "o1" "r9" "x9" (specStatusJoin "rule" "tags") ⟨"o1", []⟩) := by
  refine ⟨by decide, by decide, by decide⟩

/-- C5: the claim says `deleteRule(o, x)` removes the rule from the
ledger, dropping a now-empty `modified == "false"` ruleset entry, so
that after `addRule(r, x, "both"); deleteRule(x)` the rule is absent.
In the source, when `x` is the only rule of a `"false"` entry,
`_state_delete_rule` (state.py 494–497) delegates to
`_state_delete_ruleset` without `recursive=True`, which falls into its
`pass` arm (state.py 415–418): the ledger is returned UNCHANGED and the
rule is still present. -/
theorem c5_delete_rule_leaves_rule_tracked :
    ((state_add_rule "o1" "r9" "x9" "both" ⟨"o1", []⟩).bind
        (state_delete_rule "-localonly" "o1" "x9")
      = .ok ⟨"o1", [("o1", [("r9", ⟨"false", .map [("x9", "both")]⟩)])]⟩)
    ∧ rulesContains (RulesVal.map [("x9", "both")]) "x9" = true := by
  refine ⟨by decide, by decide⟩

/-- C6: the claim says every `del`-status ledger rule makes `push`
issue a remote `deleteRule(r, x)`.  The rule walks of `push`
(state.py 120–148, 156–184) only handle the statuses `both`, `rule` and
`tags`; a `del` rule entry under a `modified == "true"` ruleset
produces no call at all — `push` never calls `api.delete_rule`. -/
theorem c6_push_never_deletes_rules :
    (push ⟨fun s => "RS-" ++ s, fun s => "RL-" ++ s⟩ "-localonly" "o1"
        ⟨"o1", [("o1", [("r2", ⟨"true", .map [("x3", "del")]⟩)])]⟩
        [("r2", ["x3"])]
      = .ok ([.putRuleset "r2"], ⟨"o1", []⟩, [("r2", ["x3"])]))
    ∧ ApiCall.deleteRuleCall "r2" "x3" ∉ [ApiCall.putRuleset "r2"] := by
  refine ⟨by decide, by decide⟩

/-- C10: if an organization has no entry under the ledger's
`organizations` map, `push` is a complete no-op: no api calls, the
ledger document and the mirror are returned unchanged
(state.py 104, 194–196). -/
theorem c10_push_unknown_org_noop (oracle : IdOracle) (sfx o : String)
    (l : Ledger) (fs : OrgFs) (h : alGet o l.organizations = none) :
    push oracle sfx o l fs = .ok ([], l, fs) := by
  unfold push
  rw [h]

/-- Witness for C10 at a concrete ledger that tracks a different
organization. -/
theorem c10_witness :
    alGet "oX"
        (Ledger.mk "o1" [("o1", [("r9", ⟨"false", .map [("x9", "tags")]⟩)])]).organizations
      = none
    ∧ push ⟨fun s => s, fun s => s⟩ "-localonly" "oX"
        ⟨"o1", [("o1", [("r9", ⟨"false", .map [("x9", "tags")]⟩)])]⟩ []
      = .ok ([], ⟨"o1", [("o1", [("r9", ⟨"false", .map [("x9", "tags")]⟩)])]⟩, []) :=
  ⟨by decide,
   c10_push_unknown_org_noop ⟨fun s => s, fun s => s⟩ "-localonly" "oX"
     ⟨"o1", [("o1", [("r9", ⟨"false", .map [("x9", "tags")]⟩)])]⟩ [] (by decide)⟩

/-- C4: every successfully completing `refresh` replaces the
organization directory's children by exactly the remote capture, leaves
neither `.backup` nor `.remote` behind, and deletes the organization's
ledger entry (state.py 264–270); the completed result is independent of
whatever was there locally, so pending local edits (e.g. a locally
written `tags.json`) are discarded in favour of the remote version. -/
theorem c4_refresh_success (o : String) (m : OrgMirror) (l : Ledger)
    (rs : List RemoteRuleset) (res : OrgMirror × Ledger)
    (hres : refresh o m l (.ok rs) = .ok res) :
    res = (⟨writeRemote rs, none, none⟩, state_delete_organization o l)
    ∧ res.1.backupDir = none
    ∧ res.1.remoteDir = none
    ∧ ∀ (m' : OrgMirror) (res' : OrgMirror × Ledger),
        refresh o m' l (.ok rs) = .ok res' → res' = res := by
  unfold refresh at hres
  cases hrec : refreshRecover m with
  | error e => rw [hrec] at hres; cases hres
  | ok m₁ =>
    rw [hrec] at hres
    cases hres
    refine ⟨rfl, rfl, rfl, ?_⟩
    intro m' res' hres'
    unfold refresh at hres'
    cases hrec' : refreshRecover m' with
    | error e => rw [hrec'] at hres'; cases hres'
    | ok m₁' =>
      rw [hrec'] at hres'
      cases hres'
      rfl

/-- Witness for C4: a successful refresh over a mirror holding one
stale ruleset replaces it by the capture and clears the organization's
ledger entry. -/
theorem c4_witness :
    refresh "o1" ⟨[("rOld", ⟨"A", []⟩)], none, none⟩ ⟨"o1", []⟩
        (.ok [⟨"r1", "RS1", []⟩])
      = .ok (⟨[("r1", ⟨"RS1", []⟩)], none, none⟩, ⟨"o1", []⟩)
    ∧ ((⟨[("r1", ⟨"RS1", []⟩)], none, none⟩ : OrgMirror), (⟨"o1", []⟩ : Ledger))
        = (⟨writeRemote [⟨"r1", "RS1", []⟩], none, none⟩,
           state_delete_organization "o1" ⟨"o1", []⟩) :=
  ⟨by decide,
   (c4_refresh_success "o1" ⟨[("rOld", ⟨"A", []⟩)], none, none⟩ ⟨"o1", []⟩
     [⟨"r1", "RS1", []⟩]
     (⟨[("r1", ⟨"RS1", []⟩)], none, none⟩, ⟨"o1", []⟩) (by decide)).1⟩

/-- C3: the claim says refresh is all-or-nothing — on a failed or
cancelled fetch the mirror is restored, and a refresh starting after a
prior crash first restores `.backup`, so after any failed or
interrupted refresh the mirror equals its pre-refresh contents.  For
the state left by a refresh killed during the success-path moves
(state.py 266–267) — some capture children already in the organization
directory under their platform ids, the full pre-refresh mirror still
in `.backup` — the next run's recovery move (state.py 218) hits a name
collision and raises `shutil.Error` instead of restoring, whatever the
fetch would have returned: the mirror is left unrestored, refuting the
all-or-nothing claim at exactly the crash window the spec promises to
resume from. -/
theorem c3_recovery_collision_crashes (l : Ledger) (fetch : FetchResult) :
    refresh "o1"
        ⟨[("r1", ⟨"RS1-capture", []⟩)],
         some [("r1", ⟨"RS1-old", [("x1", ⟨"R1", "T1"⟩)]⟩)], none⟩
        l fetch
      = .error "shutil.Error: Destination path already exists" := by
  rfl

/-- C8 counterexample: the claim says `addRuleset` raises whenever ANY
action is applied to an existing entry whose `modified` is `"del"`.
The source's guard (state.py 347) is `action != 'del' and … == 'del'`,
so applying action `"del"` to a `"del"` entry raises nothing and
returns the ledger unchanged. -/
theorem c8_counterexample_del_on_del_does_not_raise :
    state_add_ruleset "o1" "r2" "del"
        ⟨"o1", [("o1", [("r2", ⟨"del", .map []⟩)])]⟩
      = .ok ⟨"o1", [("o1", [("r2", ⟨"del", .map []⟩)])]⟩ := by
  decide

/-- C8 (amended): `addRuleset(o, r, action)` on an existing entry
upgrades `modified` from `"false"` to `"true"` when the action is
`"true"`, raises on the forbidden `"true" → "false"` transition, raises
when action `"true"` or `"false"` is applied to a `"del"` entry, and is
a silent no-op when action `"del"` is applied to a `"del"` entry
(state.py 343–351). -/
theorem c8_add_ruleset_transitions (o r : String) (l : Ledger)
    (org : OrgLedger) (e : RsEntry)
    (ho : alGet o l.organizations = some org) (he : alGet r org = some e) :
    (e.modified = "false" →
      state_add_ruleset o r "true" l
        = .ok (setOrg o (alSet r ⟨"true", e.rules⟩ org) l))
    ∧ (e.modified = "true" →
        ∃ msg, state_add_ruleset o r "false" l = .error msg)
    ∧ (e.modified = "del" → ∀ a, a ≠ "del" →
        ∃ msg, state_add_ruleset o r a l = .error msg)
    ∧ (e.modified = "del" → state_add_ruleset o r "del" l = .ok l) := by
  refine ⟨fun hm => ?_, fun hm => ?_, fun hm a ha => ?_, fun hm => ?_⟩
  · simp only [state_add_ruleset, ho, he]
    rw [if_pos ⟨trivial, hm⟩]
  · simp only [state_add_ruleset, ho, he]
    rw [if_neg fun h => absurd h.1 (by decide),
      if_neg fun h => absurd (hm ▸ h.2 : "true" = "del") (by decide),
      if_pos ⟨trivial, hm⟩]
    exact ⟨_, rfl⟩
  · simp only [state_add_ruleset, ho, he]
    rw [if_neg fun h => absurd (hm ▸ h.2 : "del" = "false") (by decide),
      if_pos ⟨ha, hm⟩]
    exact ⟨_, rfl⟩
  · simp only [state_add_ruleset, ho, he]
    rw [if_neg fun h => absurd h.1 (by decide),
      if_neg fun h => h.1 rfl,
      if_neg fun h => absurd h.1 (by decide)]

/-- Witness for C8 (amended) on a concrete ledger holding a `"del"`
entry. -/
theorem c8_witness :
    (alGet "o1"
        (Ledger.mk "o1" [("o1", [("r2", ⟨"del", .map []⟩)])]).organizations
      = some [("r2", ⟨"del", .map []⟩)])
    ∧ (alGet "r2" [("r2", (⟨"del", .map []⟩ : RsEntry))]
      = some ⟨"del", .map []⟩)
    ∧ (((⟨"del", .map []⟩ : RsEntry).modified = "del" →
        state_add_ruleset "o1" "r2" "del"
            ⟨"o1", [("o1", [("r2", ⟨"del", .map []⟩)])]⟩
          = .ok ⟨"o1", [("o1", [("r2", ⟨"del", .map []⟩)])]⟩)) :=
  ⟨by decide, by decide,
   (c8_add_ruleset_transitions "o1" "r2"
     ⟨"o1", [("o1", [("r2", ⟨"del", .map []⟩)])]⟩
     [("r2", ⟨"del", .map []⟩)] ⟨"del", .map []⟩
     (by decide) (by decide)).2.2.2⟩

/-- If the first successful attempt is attempt `i + k` and the budget
covers it, the retry loop returns its value, having slept exactly the
delays of the rate-limited attempts before it. -/
theorem retryGo_of_first_success {α : Type} (attempts : ℕ → Outcome α) :
    ∀ (k b i : ℕ), (∀ j, j < k → isSuccess (attempts (i + j)) = false) →
      isSuccess (attempts (i + k)) = true → k < b →
      retryGo attempts i b
        = (rlDelaysFrom attempts i k, outcomeValue (attempts (i + k))) := by
  intro k
  induction k with
  | zero =>
    intro b i _ hs hb
    match b, hb with
    | b + 1, _ =>
      rw [Nat.add_zero] at hs ⊢
      cases h : attempts i with
      | success v => simp [retryGo, h, rlDelaysFrom, outcomeValue]
      | rateLimited d => rw [h] at hs; simp [isSuccess] at hs
      | urlError => rw [h] at hs; simp [isSuccess] at hs
  | succ k ih =>
    intro b i hf hs hb
    match b, hb with
    | b + 1, hb =>
      have h0 : isSuccess (attempts i) = false := by
        have := hf 0 (Nat.succ_pos k)
        rwa [Nat.add_zero] at this
      have hf' : ∀ j, j < k → isSuccess (attempts (i + 1 + j)) = false := by
        intro j hj
        have := hf (j + 1) (Nat.succ_lt_succ hj)
        rwa [show i + (j + 1) = i + 1 + j from by omega] at this
      have hs' : isSuccess (attempts (i + 1 + k)) = true := by
        rwa [show i + (k + 1) = i + 1 + k from by omega] at hs
      have hb' : k < b := Nat.lt_of_succ_lt_succ hb
      have harg : i + (k + 1) = i + 1 + k := by omega
      cases h : attempts i with
      | success v => rw [h] at h0; simp [isSuccess] at h0
      | rateLimited d =>
        rw [harg]
        simp [retryGo, h, rlDelaysFrom, ih b (i + 1) hf' hs' hb']
      | urlError =>
        rw [harg]
        simp [retryGo, h, rlDelaysFrom, ih b (i + 1) hf' hs' hb']

/-- If no attempt within the budget succeeds, the retry loop sleeps
through every rate-limited attempt and finally returns `none` — it
raises nothing. -/
theorem retryGo_exhausted {α : Type} (attempts : ℕ → Outcome α) :
    ∀ (b i : ℕ), (∀ j, j < b → isSuccess (attempts (i + j)) = false) →
      retryGo attempts i b = (rlDelaysFrom attempts i b, none) := by
  intro b
  induction b with
  | zero => intro i _; rfl
  | succ b ih =>
    intro i hf
    have h0 : isSuccess (attempts i) = false := by
      have := hf 0 (Nat.succ_pos b)
      rwa [Nat.add_zero] at this
    have hf' : ∀ j, j < b → isSuccess (attempts (i + 1 + j)) = false := by
      intro j hj
      have := hf (j + 1) (Nat.succ_lt_succ hj)
      rwa [show i + (j + 1) = i + 1 + j from by omega] at this
    cases h : attempts i with
    | success v => rw [h] at h0; simp [isSuccess] at h0
    | rateLimited d => simp [retryGo, h, rlDelaysFrom, ih (i + 1) hf']
    | urlError => simp [retryGo, h, rlDelaysFrom, ih (i + 1) hf']

/-- C7 counterexample: the claim reads the sleep as the header value
converted to seconds *plus a small fudge factor*.  For the non-GET
verbs (in particular `postRule`/`postTags` used by `push`), the source
computes `delay = reset / 1_000` with no fudge term (api.py 452): a
stubbed first `postRule` answering 429 with `x-rate-limit-reset: 250`
makes the call sleep exactly 250 ms — not a millisecond more — before
retrying and succeeding. -/
theorem c7_counterexample_post_sleeps_without_fudge :
    retryN
        (fun i => if i = 0
          then postOutcome (⟨none, 429, 250⟩ : HttpResponse String)
          else .success "created") 5
      = ([250], some "created")
    ∧ ∀ d ∈ [(250 : ℕ)], ¬ (250 < d) := by
  refine ⟨by decide, by decide⟩

/-- C7 (amended): a 429 response makes the transport sleep the
`x-rate-limit-reset` header value converted from milliseconds (plus a
0.25 s fudge on GET, and with no fudge on PUT/POST/DELETE) before
retrying, so every sleep is at least the header value; the wrapped call
runs at most its `tries` budget (default 5) and returns the first
success, sleeping exactly through the rate-limited attempts before it;
exhaustion returns `None` rather than raising; and `tries = 0` retries
until the first success.  (Times in milliseconds.) -/
theorem c7_retry_rate_limit_behaviour {α : Type} :
    (∀ r : HttpResponse α, r.jsonBody = none → r.status = 429 →
        postOutcome r = .rateLimited r.resetMs
      ∧ getOutcome r = .rateLimited (r.resetMs + 250)
      ∧ (∀ d, postOutcome r = .rateLimited d → r.resetMs ≤ d)
      ∧ (∀ d, getOutcome r = .rateLimited d → r.resetMs ≤ d))
    ∧ (∀ (attempts : ℕ → Outcome α) (k : ℕ),
        (∀ j, j < k → isSuccess (attempts j) = false) →
        isSuccess (attempts k) = true → k < 5 →
        retryN attempts 5 = (rlDelaysFrom attempts 0 k, outcomeValue (attempts k)))
    ∧ (∀ attempts : ℕ → Outcome α,
        (∀ j, j < 5 → isSuccess (attempts j) = false) →
        retryN attempts 5 = (rlDelaysFrom attempts 0 5, none))
    ∧ (∀ (attempts : ℕ → Outcome α) (h : ∃ n, isSuccess (attempts n) = true),
        retryZero attempts h
          = (rlDelaysFrom attempts 0 (Nat.find h),
             outcomeValue (attempts (Nat.find h)))
        ∧ isSuccess (attempts (Nat.find h)) = true) := by
  refine ⟨fun r hj hs => ?_, fun attempts k hf hk hb => ?_, fun attempts hf => ?_,
    fun attempts h => ?_⟩
  · have hpost : postOutcome r = .rateLimited r.resetMs := by
      simp [postOutcome, hj, hs]
    have hget : getOutcome r = .rateLimited (r.resetMs + 250) := by
      simp [getOutcome, hj, hs]
    refine ⟨hpost, hget, fun d hd => ?_, fun d hd => ?_⟩
    · rw [hpost] at hd
      cases hd
      exact Nat.le_refl _
    · rw [hget] at hd
      cases hd
      exact Nat.le_add_right _ _
  · have := retryGo_of_first_success attempts k 5 0
      (by intro j hj; simpa using hf j hj) (by simpa using hk) hb
    simpa [retryN] using this
  · have := retryGo_exhausted attempts 5 0 (by intro j hj; simpa using hf j hj)
    simpa [retryN] using this
  · have hmin : ∀ j, j < Nat.find h → isSuccess (attempts j) = false := by
      intro j hj
      simpa using Nat.find_min h hj
    have := retryGo_of_first_success attempts (Nat.find h) (Nat.find h + 1) 0
      (by intro j hj; simpa using hmin j hj) (by simpa using Nat.find_spec h)
      (Nat.lt_succ_self _)
    exact ⟨by simpa [retryZero] using this, Nat.find_spec h⟩

/-- Witness for C7 (amended): the stubbed transport of the spec's
rate-limit scenario — first `postRule` answers 429 with reset 250 ms,
the second succeeds — slept exactly [250] and delivered the value. -/
theorem c7_witness :
    ((∀ j, j < 1 →
        isSuccess ((fun i => if i = 0
          then postOutcome (⟨none, 429, 250⟩ : HttpResponse String)
          else .success "created") j) = false)
      ∧ isSuccess ((fun i => if i = 0
          then postOutcome (⟨none, 429, 250⟩ : HttpResponse String)
          else .success "created") 1) = true
      ∧ 1 < 5)
    ∧ retryN
        (fun i => if i = 0
          then postOutcome (⟨none, 429, 250⟩ : HttpResponse String)
          else .success "created") 5
      = (rlDelaysFrom
          (fun i => if i = 0
            then postOutcome (⟨none, 429, 250⟩ : HttpResponse String)
            else .success "created") 0 1,
         outcomeValue ((fun i => if i = 0
            then postOutcome (⟨none, 429, 250⟩ : HttpResponse String)
            else .success "created") 1)) :=
  ⟨⟨fun j hj => by
      match j, hj with
      | 0, _ => decide,
    by decide, by decide⟩,
   (c7_retry_rate_limit_behaviour (α := String)).2.1
     (fun i => if i = 0
        then postOutcome (⟨none, 429, 250⟩ : HttpResponse String)
        else .success "created") 1
     (fun j hj => by
        match j, hj with
        | 0, _ => decide)
     (by decide) (by decide)⟩

/-! ### Lemmas towards I1 preservation (claim C9) -/

theorem mem_alSet {β : Type} (k : String) (v : β) :
    ∀ (l : List (String × β)) (p : String × β),
      p ∈ alSet k v l → p ∈ l ∨ p = (k, v) := by
  intro l
  induction l with
  | nil =>
    intro p hp
    simp [alSet] at hp
    exact Or.inr hp
  | cons h t ih =>
    intro p hp
    unfold alSet at hp
    split at hp
    · rcases List.mem_cons.mp hp with h' | h'
      · exact Or.inr h'
      · exact Or.inl (List.mem_cons_of_mem _ h')
    · rcases List.mem_cons.mp hp with h' | h'
      · exact Or.inl (h' ▸ List.mem_cons_self _ _)
      · rcases ih p h' with h'' | h''
        · exact Or.inl (List.mem_cons_of_mem _ h'')
        · exact Or.inr h''

theorem mem_alErase {β : Type} (k : String) :
    ∀ (l : List (String × β)) (p : String × β), p ∈ alErase k l → p ∈ l := by
  intro l
  induction l with
  | nil => intro p hp; simp [alErase] at hp
  | cons h t ih =>
    intro p hp
    unfold alErase at hp
    split at hp
    · exact List.mem_cons_of_mem _ hp
    · rcases List.mem_cons.mp hp with h' | h'
      · exact h' ▸ List.mem_cons_self _ _
      · exact List.mem_cons_of_mem _ (ih p h')

theorem alGet_mem {β : Type} (k : String) :
    ∀ (l : List (String × β)) (v : β), alGet k l = some v → (k, v) ∈ l := by
  intro l
  induction l with
  | nil => intro v hv; cases hv
  | cons h t ih =>
    intro v hv
    unfold alGet at hv
    split at hv
    · rename_i heq
      cases hv
      exact heq ▸ List.mem_cons_self _ _
    · exact List.mem_cons_of_mem _ (ih v hv)

theorem alGet_alSet_self {β : Type} (k : String) (v : β) :
    ∀ l : List (String × β), alGet k (alSet k v l) = some v := by
  intro l
  induction l with
  | nil => simp [alSet, alGet]
  | cons h t ih =>
    unfold alSet
    split
    · simp [alGet]
    · rename_i hne
      unfold alGet
      rw [if_neg hne]
      exact ih

theorem alGet_setOrg_self (o : String) (m : OrgLedger) (l : Ledger) :
    alGet o (setOrg o m l).organizations = some m :=
  alGet_alSet_self o m l.organizations

theorem leadMatch_map (f : Char → Char) :
    ∀ as bs, leadMatch as bs = true → leadMatch (as.map f) (bs.map f) = true := by
  intro as
  induction as with
  | nil => intro bs _; rfl
  | cons a as ih =>
    intro bs h
    cases bs with
    | nil => cases h
    | cons b bs =>
      simp only [leadMatch, Bool.and_eq_true, decide_eq_true_eq] at h ⊢
      exact ⟨congrArg f h.1, ih bs h.2⟩

/-- Lower-casing both sides preserves a positive `endswith` test, so an
id that ends with the (lower-case) local suffix also passes the
case-insensitive check of `_state_delete_ruleset`. -/
theorem strEndsWith_lowerStr (s t : String) (h : strEndsWith s t = true) :
    strEndsWith (lowerStr s) (lowerStr t) = true := by
  have := leadMatch_map lowerChar t.data.reverse s.data.reverse h
  simpa [strEndsWith, lowerStr, List.map_reverse] using this

/-- `_state_add_rule`'s entry-level merge never touches `modified`. -/
theorem state_add_rule_entry_modified (e : RsEntry) (x ep : String)
    (e' : RsEntry) (h : state_add_rule_entry e x ep = .ok e') :
    e'.modified = e.modified := by
  unfold state_add_rule_entry at h
  split at h
  · split at h
    · cases h; rfl
    · cases h
  · split at h
    · cases h; rfl
    · cases h; rfl

/-- The inner condition of I1 for a single organization map. -/
def OrgOK (sfx : String) (m : OrgLedger) : Prop :=
  ∀ q ∈ m, strEndsWith q.1 sfx = true → (q.2 : RsEntry).modified = "true"

theorem I1_of_get {sfx : String} {l : Ledger} {o : String} {org : OrgLedger}
    (h1 : I1 sfx l) (ho : alGet o l.organizations = some org) :
    OrgOK sfx org :=
  h1 (o, org) (alGet_mem o l.organizations org ho)

theorem OrgOK_alSet {sfx : String} {org : OrgLedger} {r : String} {e : RsEntry}
    (h : OrgOK sfx org) (he : strEndsWith r sfx = true → e.modified = "true") :
    OrgOK sfx (alSet r e org) := by
  intro q hq hr
  rcases mem_alSet r e org q hq with h' | h'
  · exact h q h' hr
  · subst h'
    exact he hr

theorem OrgOK_alErase {sfx : String} {org : OrgLedger} (r : String)
    (h : OrgOK sfx org) : OrgOK sfx (alErase r org) :=
  fun q hq hr => h q (mem_alErase r org q hq) hr

theorem I1_setOrg {sfx : String} {l : Ledger} {o : String} {m : OrgLedger}
    (h1 : I1 sfx l) (hm : OrgOK sfx m) : I1 sfx (setOrg o m l) := by
  intro p hp
  rcases mem_alSet o m l.organizations p hp with h' | h'
  · exact h1 p h'
  · subst h'
    exact hm

theorem I1_state_add_organization {sfx : String} (o : String) {l : Ledger}
    (h1 : I1 sfx l) : I1 sfx (state_add_organization o l) := by
  unfold state_add_organization
  split
  · exact h1
  · exact I1_setOrg h1 (fun q hq => by cases hq)

theorem I1_state_delete_organization {sfx : String} (o : String) {l : Ledger}
    (h1 : I1 sfx l) : I1 sfx (state_delete_organization o l) :=
  fun p hp => h1 p (mem_alErase o l.organizations p hp)

theorem I1_state_add_ruleset {sfx : String} (o r a : String) {l l' : Ledger}
    (h1 : I1 sfx l) (hg : strEndsWith r sfx = true → a = "true")
    (hap : state_add_ruleset o r a l = .ok l') : I1 sfx l' := by
  unfold state_add_ruleset at hap
  split at hap
  · rename_i org ho
    split at hap
    · rename_i e he
      split at hap
      · cases hap
        exact I1_setOrg h1 (OrgOK_alSet (I1_of_get h1 ho) fun _ => rfl)
      · split at hap
        · cases hap
        · split at hap
          · cases hap
          · cases hap
            exact h1
    · cases hap
      refine I1_setOrg h1 (OrgOK_alSet (I1_of_get h1 ho) fun hr => ?_)
      rw [hg hr]
  · rename_i ho
    cases hap
    refine I1_setOrg (I1_state_add_organization o h1)
      (OrgOK_alSet (fun q hq => by cases hq) fun hr => ?_)
    rw [hg hr]

theorem I1_state_delete_ruleset {sfx : String} (o r : String) (rec : Bool)
    {l l' : Ledger} (h1 : I1 sfx l)
    (hap : state_delete_ruleset sfx o r rec l = .ok l') : I1 sfx l' := by
  unfold state_delete_ruleset at hap
  split at hap
  · cases hap; exact h1
  · rename_i org ho
    split at hap
    · cases hap; exact h1
    · rename_i e he
      split at hap
      · -- case-insensitively local-suffixed ruleset
        split at hap
        · split at hap
          · cases hap
            exact I1_setOrg h1 (OrgOK_alErase r (I1_of_get h1 ho))
          · split at hap
            · cases hap
              exact I1_setOrg h1 (OrgOK_alErase r (I1_of_get h1 ho))
            · cases hap; exact h1
        · cases hap
      · -- remote-named ruleset
        rename_i hnl
        split at hap
        · split at hap
          · cases hap
          · split at hap
            · cases hap
              refine I1_setOrg h1 (OrgOK_alSet (I1_of_get h1 ho) fun hr => ?_)
              exact absurd (strEndsWith_lowerStr r sfx hr) hnl
            · cases hap; exact h1
        · split at hap
          · split at hap
            · cases hap
            · split at hap
              · cases hap
                refine I1_setOrg h1 (OrgOK_alSet (I1_of_get h1 ho) fun hr => ?_)
                exact absurd (strEndsWith_lowerStr r sfx hr) hnl
              · cases hap; exact h1
          · split at hap
            · split at hap
              · cases hap; exact h1
              · cases hap
            · cases hap; exact h1

theorem I1_state_add_rule {sfx : String} (o r x ep : String) {l l' : Ledger}
    (h1 : I1 sfx l)
    (hg : strEndsWith r sfx = true →
      ∃ org, alGet o l.organizations = some org ∧ (alGet r org).isSome = true)
    (hap : state_add_rule o r x ep l = .ok l') : I1 sfx l' := by
  unfold state_add_rule at hap
  split at hap
  · rename_i org ho
    split at hap
    · rename_i e he
      cases hee : state_add_rule_entry e x ep with
      | error m => rw [hee] at hap; cases hap
      | ok e' =>
        rw [hee] at hap
        simp only [Except.map] at hap
        cases hap
        refine I1_setOrg h1 (OrgOK_alSet (I1_of_get h1 ho) fun hr => ?_)
        rw [state_add_rule_entry_modified e x ep e' hee]
        exact I1_of_get h1 ho (r, e) (alGet_mem r org e he) hr
    · rename_i he
      have hnr : ¬ strEndsWith r sfx = true := by
        intro hr
        rcases hg hr with ⟨org', ho', hs'⟩
        rw [ho] at ho'
        cases ho'
        rw [he] at hs'
        cases hs'
      simp [state_add_ruleset, ho, he, bind, Except.bind,
        alGet_setOrg_self, alGet_alSet_self, state_add_rule_entry,
        rulesContains, alGet, Except.map] at hap
      cases hap.symm
      refine I1_setOrg (I1_setOrg h1 ?_) ?_
      · exact OrgOK_alSet (I1_of_get h1 ho) fun hr => absurd hr hnr
      · exact OrgOK_alSet
          (OrgOK_alSet (I1_of_get h1 ho) fun hr => absurd hr hnr)
          fun hr => absurd hr hnr
  · rename_i ho
    have hnr : ¬ strEndsWith r sfx = true := by
      intro hr
      rcases hg hr with ⟨org', ho', _⟩
      rw [ho] at ho'
      cases ho'
    simp [state_add_organization, ho, state_add_ruleset,
      alGet_setOrg_self, alGet_alSet_self, bind, Except.bind,
      state_add_rule_entry, rulesContains, alGet, Except.map] at hap
    cases hap.symm
    refine I1_setOrg (I1_setOrg (I1_setOrg h1 ?_) ?_) ?_
    · exact fun q hq => by cases hq
    · exact OrgOK_alSet (fun q hq => by cases hq) fun hr => absurd hr hnr
    · exact OrgOK_alSet
        (OrgOK_alSet (fun q hq => by cases hq) fun hr => absurd hr hnr)
        fun hr => absurd hr hnr

theorem I1_state_delete_rule {sfx : String} (o x : String) {l l' : Ledger}
    (h1 : I1 sfx l) (hap : state_delete_rule sfx o x l = .ok l') :
    I1 sfx l' := by
  unfold state_delete_rule at hap
  split at hap
  · cases hap; exact h1
  · rename_i org ho
    split at hap
    · cases hap; exact h1
    · rename_i r e hfind
      split at hap
      · exact I1_state_delete_ruleset o r false h1 hap
      · split at hap
        · cases hap
          refine I1_setOrg h1 (OrgOK_alSet (I1_of_get h1 ho) fun hr => ?_)
          exact I1_of_get h1 ho (r, e) (List.mem_of_find?_eq_some hfind) hr
        · cases hap

/-- Single mutator calls that respect the side conditions preserve I1. -/
theorem I1_applyOp {sfx : String} (op : MutOp) {l l' : Ledger}
    (h1 : I1 sfx l) (hg : goodOp sfx op l = true)
    (hap : applyOp sfx op l = .ok l') : I1 sfx l' := by
  cases op with
  | addOrg o => cases hap; exact I1_state_add_organization o h1
  | delOrg o => cases hap; exact I1_state_delete_organization o h1
  | addRs o r a =>
    refine I1_state_add_ruleset o r a h1 (fun hr => ?_) hap
    simp [goodOp, hr] at hg
    exact hg
  | delRs o r rec => exact I1_state_delete_ruleset o r rec h1 hap
  | addRl o r x ep =>
    refine I1_state_add_rule o r x ep h1 (fun hr => ?_) hap
    simp [goodOp, hr] at hg
    cases ho : alGet o l.organizations with
    | none => rw [ho] at hg; simp at hg
    | some org => rw [ho] at hg; exact ⟨org, rfl, hg⟩
  | delRl o x => exact I1_state_delete_rule o x h1 hap

/-- C9 counterexample: the claim says NO sequence of ledger mutators
leaves a local-suffixed ruleset entry with `modified` `"false"` or
`"del"`.  A single `addRule` naming an untracked local-suffixed ruleset
(state.py 458–466) creates exactly such an entry: the enclosing ruleset
is inserted with `modified = "false"`, violating I1. -/
theorem c9_counterexample_add_rule_makes_false_local_entry :
    state_add_rule "o1" "u1-localonly" "x9" "rule" ⟨"o1", []⟩
      = .ok ⟨"o1",
          [("o1", [("u1-localonly", ⟨"false", .map [("x9", "rule")]⟩)])]⟩
    ∧ ¬ I1 "-localonly"
        ⟨"o1", [("o1", [("u1-localonly", ⟨"false", .map [("x9", "rule")]⟩)])]⟩ := by
  refine ⟨by decide, by decide⟩

/-- C9 (amended): locally created rulesets enter the ledger with action
`"true"` and, for every sequence of ledger mutator calls in which
`addRuleset` on a local-suffixed ruleset is only ever invoked with
action `"true"` (as `_create_ruleset` does) and `addRule` never targets
a local-suffixed ruleset absent from the ledger, invariant I1 — every
local-suffixed ruleset entry has `modified == "true"` — is preserved by
the whole sequence. -/
theorem c9_good_runs_preserve_I1 (sfx : String) :
    ∀ (ops : List MutOp) (l l' : Ledger), I1 sfx l →
      goodRun sfx ops l = true → applyOps sfx ops l = .ok l' → I1 sfx l' := by
  intro ops
  induction ops with
  | nil =>
    intro l l' h1 _ hap
    cases hap
    exact h1
  | cons op t ih =>
    intro l l' h1 hg hap
    simp only [goodRun, Bool.and_eq_true] at hg
    unfold applyOps at hap
    cases hop : applyOp sfx op l with
    | error m => rw [hop] at hap; cases hap
    | ok l₁ =>
      rw [hop] at hap
      have hgt : goodRun sfx t l₁ = true := by
        have h2 := hg.2
        rw [hop] at h2
        exact h2
      exact ih l₁ l' (I1_applyOp op h1 hg.1 hop) hgt hap

/-- Witness for C9 (amended): creating a local ruleset with action
`"true"` and then adding a rule to it keeps I1. -/
theorem c9_witness :
    (I1 "-localonly" ⟨"o1", []⟩
      ∧ goodRun "-localonly"
          [.addRs "o1" "u1-localonly" "true",
           .addRl "o1" "u1-localonly" "x9" "rule"] ⟨"o1", []⟩ = true
      ∧ applyOps "-localonly"
          [.addRs "o1" "u1-localonly" "true",
           .addRl "o1" "u1-localonly" "x9" "rule"] ⟨"o1", []⟩
        = .ok ⟨"o1",
            [("o1", [("u1-localonly", ⟨"true", .map [("x9", "rule")]⟩)])]⟩)
    ∧ I1 "-localonly"
        ⟨"o1", [("o1", [("u1-localonly", ⟨"true", .map [("x9", "rule")]⟩)])]⟩ :=
  ⟨⟨by decide, by decide, by decide⟩,
   c9_good_runs_preserve_I1 "-localonly"
     [.addRs "o1" "u1-localonly" "true",
      .addRl "o1" "u1-localonly" "x9" "rule"] ⟨"o1", []⟩
     ⟨"o1", [("o1", [("u1-localonly", ⟨"true", .map [("x9", "rule")]⟩)])]⟩
     (by decide) (by decide) (by decide)⟩

end TsCtl
